import Mathlib

/-!
Verification of the MGX environment message-routing subsystem
(`metagpt/environment/mgx/mgx_env.py`): the publish/subscribe decision
logic, the direct-chat bypass rules, and the finish-task detection
heuristics, shallowly embedded in Lean 4.

Python `str` is modelled as `String`, Python sets of strings as `List String`
with explicit set-semantics helpers (membership, insert-if-absent,
extensional equality), dictionaries as association lists, and exceptions as
`Except String`.  Supporting classes that are referenced by the routing code
but whose sources are not part of this snapshot (`schema.Message`,
`base_env.Environment`, `memory.Memory`, the role classes, and
`utils.common`) are modelled from the specification; each such definition
carries a doc comment saying so.
-/

namespace MGX

/-- A metadata value: either a plain string (e.g. the AGENT key) or a list of
base64-encoded images (the IMAGES key). -/
inductive MetaVal where
  | str (v : String)
  | imgs (v : List String)
deriving DecidableEq, Repr

/-- Modelled from the spec: `schema.Message` (not in the snapshot).  Fields
per §3 of the spec: `content`, `role`, `sent_from` (empty string when absent),
`send_to` (a set of identifiers, modelled as a list with set semantics),
`cause_by` (action tag string), `metadata` (string-keyed mapping). -/
structure Message where
  content : String
  role : String
  sent_from : String
  send_to : List String
  cause_by : String
  metadata : List (String × MetaVal)
deriving DecidableEq, Repr

/-- Modelled from the spec: a role-agent as the routing code sees it —
identity (name + profile), idle flag, inbound FIFO mailbox
(`rc.msg_buffer`), private memory (`rc.memory`), and a counter of
`finish_current_task` invocations standing for the team leader's
finish-current-task transition. -/
structure Role where
  name : String
  profile : String
  is_idle : Bool
  msg_buffer : List Message
  memory : List Message
  finished_tasks : Nat
deriving DecidableEq, Repr

/-- The MGX environment state: the roster of roles, the append-only history
log, the `direct_chat_roles` set, and the `allow_bypass_team_leader` flag
(`mgx_env.py`, lines 19–25). -/
structure MGXEnv where
  roles : List Role
  history : List Message
  direct_chat_roles : List String
  allow_bypass_team_leader : Bool
deriving DecidableEq, Repr

/-! ### Python-set helpers over `List String` -/

/-- Python `set.add`: insert if absent (order of a Python set is
unobservable; we append). -/
def setAdd (l : List String) (x : String) : List String :=
  if l.contains x then l else l ++ [x]

/-- Python `set.remove` under a membership guard: drop all copies. -/
def setRemove (l : List String) (x : String) : List String :=
  l.filter (fun y => y ≠ x)

/-- Python set equality: extensional equality of the element collections. -/
def pySetEq (a b : List String) : Bool :=
  a.all b.contains && b.all a.contains

/-- Python `repr` of a string: wrap in single quotes. -/
def pyStrQuote (s : String) : String := "'" ++ s ++ "'"

/-- Python `str()` of a set of strings, as interpolated by an f-string.
A Python set iterates in an unspecified order; we canonicalize to the
order of the modelling list.  The empty set prints as `set()`. -/
def renderStrSet (l : List String) : String :=
  if l.isEmpty then "set()"
  else "\x7b" ++ String.intercalate ", " (l.map pyStrQuote) ++ "\x7d"

/-- Python `str()` of a list of strings. -/
def renderStrList (l : List String) : String :=
  "[" ++ String.intercalate ", " (l.map pyStrQuote) ++ "]"

/-- Python `str()` of a metadata value. -/
def renderMetaVal : MetaVal → String
  | .str v => v
  | .imgs v => renderStrList v

/-- Python truthiness of a metadata value (`x or 'User'` picks the fallback
exactly when `x` is falsy). -/
def metaValFalsy : MetaVal → Bool
  | .str v => v = ""
  | .imgs v => v.isEmpty

/-! ### Metadata dictionary helpers -/

/-- Dictionary lookup `md[k]` (`AGENT in metadata` / `metadata[AGENT]`). -/
def metaGet (md : List (String × MetaVal)) (k : String) : Option MetaVal :=
  (md.find? (fun p => p.1 = k)).map (fun p => p.2)

/-- Dictionary update `md[k] = v`. -/
def metaSet (md : List (String × MetaVal)) (k : String) (v : MetaVal) :
    List (String × MetaVal) :=
  if (md.find? (fun p => p.1 = k)).isSome then
    md.map (fun p => if p.1 = k then (k, v) else p)
  else md ++ [(k, v)]

/-- Does `needle` occur as a contiguous run inside the character list? -/
def charInfixOf (needle : List Char) : List Char → Bool
  | [] => needle.isEmpty
  | c :: t => needle.isPrefixOf (c :: t) || charInfixOf needle t

/-- Python `needle in haystack` on strings: substring containment. -/
def containsSubstr (s sub : String) : Bool :=
  charInfixOf sub.data s.data

/-! ### Action and role tags

`utils.common.any_to_str` (not in the snapshot) renders a class as its
canonical dotted-path identifier; modelled from the spec as fixed, pairwise
distinct strings. -/

/-- Tag of `UserRequirement` (`cause_by` of user-originated requirements). -/
def UserRequirementTag : String := "metagpt.actions.add_requirement.UserRequirement"

/-- Tag of the `WritePRD` action (`metagpt/actions/write_prd.py`). -/
def WritePRDTag : String := "metagpt.actions.write_prd.WritePRD"

/-- Tag of the `WriteDesign` action. -/
def WriteDesignTag : String := "metagpt.actions.design_api.WriteDesign"

/-- Tag of the `WriteTasks` action. -/
def WriteTasksTag : String := "metagpt.actions.project_management.WriteTasks"

/-- Tag of the `SummarizeCode` action. -/
def SummarizeCodeTag : String := "metagpt.actions.summarize_code.SummarizeCode"

/-- Tag of the `WriteTest` action. -/
def WriteTestTag : String := "metagpt.actions.write_test.WriteTest"

/-- Modelled from the spec: canonical tag of the `ProductManager` role class
(role sources not in the snapshot); its instances have profile
"Product Manager". -/
def ProductManagerTag : String := "metagpt.roles.product_manager.ProductManager"

/-- Modelled from the spec: canonical tag of the `Architect` role class;
profile "Architect". -/
def ArchitectTag : String := "metagpt.roles.architect.Architect"

/-- Modelled from the spec: canonical tag of the `ProjectManager` role class;
profile "Project Manager". -/
def ProjectManagerTag : String := "metagpt.roles.project_manager.ProjectManager"

/-- Modelled from the spec: canonical tag of the `TeamLeader` role class
(name "Mike"); profile "Team Leader". -/
def TeamLeaderTag : String := "metagpt.roles.di.team_leader.TeamLeader"

/-- Canonical tag of the `Engineer2` role class
(`metagpt/roles/di/engineer2.py`); profile "Engineer". -/
def Engineer2Tag : String := "metagpt.roles.di.engineer2.Engineer2"

/-- Modelled from the spec: the profile carried by a sender tag, for the
role classes this routing layer distinguishes (§9 of the spec: role identity
is duck-typed string matching between class tags and profiles). -/
def tagProfile (t : String) : Option String :=
  if t = ProductManagerTag then some "Product Manager"
  else if t = ArchitectTag then some "Architect"
  else if t = ProjectManagerTag then some "Project Manager"
  else if t = TeamLeaderTag then some "Team Leader"
  else if t = Engineer2Tag then some "Engineer"
  else none

/-- Reserved metadata key for the delegated agent name (`const.AGENT`,
not in the snapshot; modelled from the spec as a fixed reserved key). -/
def AGENT : String := "agent"

/-- Reserved metadata key for attached images (`const.IMAGES`). -/
def IMAGES : String := "images"

/-! ### Environment operations -/

/-- Modelled from the spec: `Environment.get_role` (`base_env.py`, not in
the snapshot) — look up a role by name in the roster, `none` when no role
of that name exists. -/
def get_role (env : MGXEnv) (name : String) : Option Role :=
  env.roles.find? (fun r => r.name = name)

/-- Modelled from the spec: `Role.put_message` — enqueue into the role's
FIFO mailbox; duplicates by message identity are not re-added (§3 of the
spec, RoleMailbox). -/
def put_message (r : Role) (m : Message) : Role :=
  if r.msg_buffer.contains m then r
  else { r with msg_buffer := r.msg_buffer ++ [m] }

/-- Apply `f` to the role named `name` in the roster, leaving all others
untouched. -/
def updateRole (env : MGXEnv) (name : String) (f : Role → Role) : MGXEnv :=
  { env with roles := env.roles.map (fun r => if r.name = name then f r else r) }

/-- Modelled from the spec: `Environment.publish_message`
(`super().publish_message`, `base_env.py` not in the snapshot) — enqueue the
message into each recipient mailbox, recipients being the roster roles whose
name occurs in `send_to`; unroutable names match no mailbox and are dropped
(§2 and §7 of the spec).  The history append is performed by the MGX
override itself (line 88), not here. -/
def basePublishMessage (env : MGXEnv) (m : Message) : MGXEnv :=
  { env with
    roles := env.roles.map (fun r =>
      if m.send_to.contains r.name then put_message r m else r) }

/-- `MGXEnv.attach_images` (`mgx_env.py`, lines 130–135), value level: when
the role is "user", extract image references from the content
(`extract_and_encode_images`, not in the snapshot, is passed in as the
parameter `ximg`) and, if any were found, record them under the reserved
IMAGES metadata key. -/
def attach_images (ximg : String → List String) (message : Message) : Message :=
  if message.role = "user" then
    let images := ximg message.content
    if images ≠ [] then
      { message with metadata := metaSet message.metadata IMAGES (.imgs images) }
    else message
  else message

/-- The sender name rendered into the provenance that the content rewrite
adds (`mgx_env.py`, line 124 and the `\x7bsent_from or 'User'\x7d` of line 126):
the AGENT metadata entry if present, else `sent_from`, with a falsy value
replaced by "User". -/
def msgSender (message : Message) : String :=
  let sfv : MetaVal :=
    match metaGet message.metadata AGENT with
    | some v => v
    | none => .str message.sent_from
  if metaValFalsy sfv then "User" else renderMetaVal sfv

/-- `MGXEnv.move_message_info_to_content` (`mgx_env.py`, lines 116–128),
value level: coerce `role` into `\x7bsystem, user, assistant\x7d`, then
rewrite `content` to `"[Message] from X to Y: original"` where X is
`msgSender` and Y is the rendering of `send_to`. -/
def move_message_info_to_content (message : Message) : Message :=
  let newRole :=
    if ["system", "user", "assistant"].contains message.role then message.role
    else "assistant"
  { message with
    role := newRole,
    content := "[Message] from " ++ msgSender message ++ " to " ++
      renderStrSet message.send_to ++ ": " ++ message.content }

/-- `MGXEnv.message_within_software_sop` (`mgx_env.py`, lines 101–104):
the sender tag is one of the planning-role class tags. -/
def message_within_software_sop (m : Message) : Bool :=
  [ProductManagerTag, ArchitectTag, ProjectManagerTag].contains m.sent_from

/-- Modelled from the spec: `HistoryLog.get(k)` returns the most recent `k`
entries, or all entries if the log is shorter (all when `k = 0`, per the
memory API). -/
def historyGet (env : MGXEnv) (k : Nat) : List Message :=
  if k = 0 then env.history else env.history.drop (env.history.length - k)

/-- `MGXEnv.has_user_requirement` (`mgx_env.py`, lines 106–108): some entry
among the last `k` history entries was caused by `UserRequirement`. -/
def has_user_requirement (env : MGXEnv) (k : Nat) : Bool :=
  ((historyGet env k).map Message.cause_by).contains UserRequirementTag

/-- `MGXEnv.is_software_task_finished` (`mgx_env.py`, lines 110–114). -/
def is_software_task_finished (m : Message) : Bool :=
  [WritePRDTag, WriteDesignTag, WriteTasksTag, SummarizeCodeTag].contains m.cause_by
  || (m.cause_by = WriteTestTag && containsSubstr m.content "Exceeding")

/-- The loop `for role_name in message.send_to: if
self.get_role(role_name).is_idle: self.direct_chat_roles.add(role_name)`
(`mgx_env.py`, lines 38–42).  `get_role` yields `None` for an unknown name,
on which `.is_idle` raises an `AttributeError`; the accumulator is the
growing `direct_chat_roles` set. -/
def directChatAdds (env : MGXEnv) : List String → List String → Except String (List String)
  | [], acc => .ok acc
  | n :: rest, acc =>
    match get_role env n with
    | none => .error "AttributeError: NoneType object has no attribute is_idle"
    | some r => directChatAdds env rest (if r.is_idle then setAdd acc n else acc)

/-- `MGXEnv.publish_message` (`mgx_env.py`, lines 30–90).  The if/elif
chain in source order: (1) user-defined recipient — flag idle addressees
for direct chat and deliver; (2) direct-chat response — unflag the sender
and deliver to no mailbox; (3) SOP fast-path under
`allow_bypass_team_leader` — deliver verbatim and, when the finish
heuristic fires, notify the team leader's memory and invoke its
finish-current-task transition (the `CURRENT_ROLE` context juggling around
that call has no effect on the state modelled here); (4) publicer is the
team leader — the `\x7b"no one"\x7d` sentinel returns early WITHOUT the
history append of line 88, otherwise deliver verbatim; (5) default — rewrite
via `move_message_info_to_content`, add the team leader's name to `send_to`,
and enqueue to the team leader only.  All branches except the early return
in (4) fall through to `self.history.add(message)` (line 88), appending the
possibly rewritten message. -/
def publish_message (ximg : String → List String) (env : MGXEnv)
    (message : Message) (user_defined_recipient : String) (publicer : String) :
    Except String (MGXEnv × Bool) :=
  let message := attach_images ximg message
  let tlOpt := get_role env "Mike"
  if user_defined_recipient ≠ "" then
    match directChatAdds env message.send_to env.direct_chat_roles with
    | .error e => .error e
    | .ok dcr =>
      let env := basePublishMessage { env with direct_chat_roles := dcr } message
      .ok ({ env with history := env.history ++ [message] }, true)
  else if env.direct_chat_roles.contains message.sent_from then
    let env := { env with
      direct_chat_roles := setRemove env.direct_chat_roles message.sent_from }
    .ok ({ env with history := env.history ++ [message] }, true)
  else if env.allow_bypass_team_leader && message_within_software_sop message
      && !(has_user_requirement env 1) then
    let env := basePublishMessage env message
    if is_software_task_finished message then
      match tlOpt with
      | none => .error "AttributeError: NoneType object has no attribute rc"
      | some _ =>
        let env := updateRole env "Mike" (fun tl =>
          { tl with
            memory := tl.memory ++ [move_message_info_to_content message],
            finished_tasks := tl.finished_tasks + 1 })
        .ok ({ env with history := env.history ++ [message] }, true)
    else
      .ok ({ env with history := env.history ++ [message] }, true)
  else
    match tlOpt with
    | none => .error "AttributeError: NoneType object has no attribute profile"
    | some tl =>
      if publicer = tl.profile then
        if pySetEq message.send_to ["no one"] then
          .ok (env, true)
        else
          let env := basePublishMessage env message
          .ok ({ env with history := env.history ++ [message] }, true)
      else
        let message := move_message_info_to_content message
        let message := { message with send_to := setAdd message.send_to tl.name }
        let env := updateRole env tl.name (fun r => put_message r message)
        .ok ({ env with history := env.history ++ [message] }, true)

/-! ### Object store

Python messages are heap objects with identity; to state frame/aliasing
properties (`model_copy` versus in-place mutation) we embed the two
rewriting helpers a second time against an explicit store of message
objects.  A reference is an index into the store; `model_copy(deep=True)`
is an allocation of a fresh object with the same field values; a field
assignment is a write at the object's reference. -/

/-- A heap of message objects; references are indices. -/
structure MsgStore where
  msgs : List Message
deriving DecidableEq, Repr

/-- Dereference. -/
def readRef (st : MsgStore) (r : Nat) : Option Message :=
  st.msgs.get? r

/-- In-place field update of the object at `r`. -/
def writeRef (st : MsgStore) (r : Nat) (m : Message) : MsgStore :=
  ⟨st.msgs.set r m⟩

/-- `model_copy(deep=True)`: allocate a fresh object with the same field
values and return its reference. -/
def allocRef (st : MsgStore) (m : Message) : MsgStore × Nat :=
  (⟨st.msgs ++ [m]⟩, st.msgs.length)

/-- `MGXEnv.move_message_info_to_content` at the object level
(`mgx_env.py`, lines 116–128): deep-copy the argument
(`message.model_copy(deep=True)`, line 121), then mutate the copy's `role`
(lines 122–123) and `content` (lines 125–127); the argument object is never
assigned to. -/
def move_message_info_to_content_st (st : MsgStore) (ref : Nat) :
    Option (MsgStore × Nat) :=
  match readRef st ref with
  | none => none
  | some m =>
    let p := allocRef st m
    let st := p.1
    let newRef := p.2
    let st :=
      if ["system", "user", "assistant"].contains m.role then st
      else writeRef st newRef { m with role := "assistant" }
    match readRef st newRef with
    | none => none
    | some c =>
      some (writeRef st newRef
        { c with content := "[Message] from " ++ msgSender c ++ " to " ++
            renderStrSet c.send_to ++ ": " ++ c.content }, newRef)

/-- `MGXEnv.attach_images` at the object level (`mgx_env.py`, lines
130–135): when the role is "user" and image references are found, the
IMAGES metadata entry is written into the argument object itself
(`message.add_metadata`, modelled from the spec as an in-place dictionary
update since `schema.py` is not in the snapshot); the very same reference
is returned. -/
def attach_images_st (ximg : String → List String) (st : MsgStore) (ref : Nat) :
    Option (MsgStore × Nat) :=
  match readRef st ref with
  | none => none
  | some m =>
    if m.role = "user" then
      let images := ximg m.content
      if images ≠ [] then
        some (writeRef st ref
          { m with metadata := metaSet m.metadata IMAGES (.imgs images) }, ref)
      else some (st, ref)
    else some (st, ref)

/-! ### Concrete fixtures for witnesses and counterexamples -/

/-- An image extractor that finds nothing (plain-text contents). -/
def noImg : String → List String := fun _ => []

/-- The team leader, named Mike (`mgx_env.py`, line 34), profile
"Team Leader". -/
def mikeR : Role :=
  { name := "Mike", profile := "Team Leader", is_idle := true,
    msg_buffer := [], memory := [], finished_tasks := 0 }

/-- An idle engineer role named Bob. -/
def bobR : Role :=
  { name := "Bob", profile := "Engineer", is_idle := true,
    msg_buffer := [], memory := [], finished_tasks := 0 }

/-- Environment with only the team leader, empty history. -/
def exEnv : MGXEnv :=
  { roles := [mikeR], history := [], direct_chat_roles := [],
    allow_bypass_team_leader := false }

/-- Environment with the team leader and Bob, empty history. -/
def exEnv2 : MGXEnv :=
  { roles := [mikeR, bobR], history := [], direct_chat_roles := [],
    allow_bypass_team_leader := false }

/-- The team leader's dummy message: `send_to == \x7b"no one"\x7d`. -/
def dummyMsg : Message :=
  { content := "done", role := "assistant", sent_from := "Mike",
    send_to := ["no one"], cause_by := "", metadata := [] }

/-- The routing decision reaches the team leader's dummy-message early
return (`mgx_env.py`, lines 76–78): no user-defined recipient, sender not
in a direct chat, the SOP fast-path does not apply, the publicer is the
team leader's profile, and `send_to` is the `\x7b"no one"\x7d` sentinel.
(`attach_images` alters only metadata, so the conditions can be read off
the original message.) -/
def isDummySuppressed (env : MGXEnv) (m : Message) (udr publicer : String) : Bool :=
  udr = "" && !(env.direct_chat_roles.contains m.sent_from)
  && !(env.allow_bypass_team_leader && message_within_software_sop m
        && !(has_user_requirement env 1))
  && (match get_role env "Mike" with
      | some tl => publicer = tl.profile && pySetEq m.send_to ["no one"]
      | none => false)

end MGX

deriving instance DecidableEq for Except

namespace MGX

/-! ### Field-preservation lemmas for `attach_images` -/

@[simp] lemma attach_images_sent_from (x : String → List String) (m : Message) :
    (attach_images x m).sent_from = m.sent_from := by
  simp only [attach_images]; split <;> first | rfl | (split <;> rfl)

@[simp] lemma attach_images_send_to (x : String → List String) (m : Message) :
    (attach_images x m).send_to = m.send_to := by
  simp only [attach_images]; split <;> first | rfl | (split <;> rfl)

@[simp] lemma attach_images_content (x : String → List String) (m : Message) :
    (attach_images x m).content = m.content := by
  simp only [attach_images]; split <;> first | rfl | (split <;> rfl)

@[simp] lemma attach_images_cause_by (x : String → List String) (m : Message) :
    (attach_images x m).cause_by = m.cause_by := by
  simp only [attach_images]; split <;> first | rfl | (split <;> rfl)

@[simp] lemma attach_images_role (x : String → List String) (m : Message) :
    (attach_images x m).role = m.role := by
  simp only [attach_images]; split <;> first | rfl | (split <;> rfl)

@[simp] lemma attach_images_sop (x : String → List String) (m : Message) :
    message_within_software_sop (attach_images x m) =
      message_within_software_sop m := by
  unfold message_within_software_sop; rw [attach_images_sent_from]

@[simp] lemma attach_images_finished (x : String → List String) (m : Message) :
    is_software_task_finished (attach_images x m) =
      is_software_task_finished m := by
  unfold is_software_task_finished
  rw [attach_images_cause_by, attach_images_content]

@[simp] lemma attach_images_pySetEq (x : String → List String) (m : Message)
    (l : List String) :
    pySetEq (attach_images x m).send_to l = pySetEq m.send_to l := by
  rw [attach_images_send_to]

@[simp] lemma basePublish_history (env : MGXEnv) (m : Message) :
    (basePublishMessage env m).history = env.history := rfl

@[simp] lemma basePublish_dcr (env : MGXEnv) (m : Message) :
    (basePublishMessage env m).direct_chat_roles = env.direct_chat_roles := rfl

@[simp] lemma updateRole_history (env : MGXEnv) (n : String) (f : Role → Role) :
    (updateRole env n f).history = env.history := rfl

@[simp] lemma basePublish_bypass (env : MGXEnv) (m : Message) :
    (basePublishMessage env m).allow_bypass_team_leader =
      env.allow_bypass_team_leader := rfl

@[simp] lemma updateRole_dcr (env : MGXEnv) (n : String) (f : Role → Role) :
    (updateRole env n f).direct_chat_roles = env.direct_chat_roles := rfl

@[simp] lemma updateRole_bypass (env : MGXEnv) (n : String) (f : Role → Role) :
    (updateRole env n f).allow_bypass_team_leader =
      env.allow_bypass_team_leader := rfl

/-! ### Branch characterizations of `publish_message`

One lemma per arm of the if/elif chain of `mgx_env.py`, lines 36–90, each
giving the exact result under that arm's conditions. -/

lemma publish_user_defined (ximg : String → List String) (env : MGXEnv)
    (m : Message) (udr pub : String) (dcr : List String)
    (hu : udr ≠ "")
    (hd : directChatAdds env (attach_images ximg m).send_to
            env.direct_chat_roles = .ok dcr) :
    publish_message ximg env m udr pub =
      .ok ({ basePublishMessage { env with direct_chat_roles := dcr }
               (attach_images ximg m) with
             history := env.history ++ [attach_images ximg m] }, true) := by
  simp only [publish_message, if_pos hu, hd, basePublish_history, basePublish_dcr,
    basePublish_bypass, updateRole_history, updateRole_dcr, updateRole_bypass]

lemma publish_direct_chat_response (ximg : String → List String) (env : MGXEnv)
    (m : Message) (udr pub : String)
    (hu : udr = "")
    (hc : env.direct_chat_roles.contains (attach_images ximg m).sent_from = true) :
    publish_message ximg env m udr pub =
      .ok ({ env with
             direct_chat_roles :=
               setRemove env.direct_chat_roles (attach_images ximg m).sent_from,
             history := env.history ++ [attach_images ximg m] }, true) := by
  simp only [publish_message, hu, ne_eq, not_true_eq_false, if_false, hc, if_true, basePublish_history, basePublish_dcr,
    basePublish_bypass, updateRole_history, updateRole_dcr, updateRole_bypass]

lemma publish_bypass_not_finished (ximg : String → List String) (env : MGXEnv)
    (m : Message) (udr pub : String)
    (hu : udr = "")
    (hc : env.direct_chat_roles.contains (attach_images ximg m).sent_from = false)
    (hb : (env.allow_bypass_team_leader
            && message_within_software_sop (attach_images ximg m)
            && !(has_user_requirement env 1)) = true)
    (hf : is_software_task_finished (attach_images ximg m) = false) :
    publish_message ximg env m udr pub =
      .ok ({ basePublishMessage env (attach_images ximg m) with
             history := env.history ++ [attach_images ximg m] }, true) := by
  simp only [publish_message, hu, ne_eq, not_true_eq_false, if_false, hc, hb,
    if_true, hf, Bool.false_eq_true, basePublish_history, basePublish_dcr,
    basePublish_bypass, updateRole_history, updateRole_dcr, updateRole_bypass]

lemma publish_bypass_finished (ximg : String → List String) (env : MGXEnv)
    (m : Message) (udr pub : String) (tl : Role)
    (hu : udr = "")
    (hc : env.direct_chat_roles.contains (attach_images ximg m).sent_from = false)
    (hb : (env.allow_bypass_team_leader
            && message_within_software_sop (attach_images ximg m)
            && !(has_user_requirement env 1)) = true)
    (hf : is_software_task_finished (attach_images ximg m) = true)
    (htl : get_role env "Mike" = some tl) :
    publish_message ximg env m udr pub =
      .ok ({ updateRole (basePublishMessage env (attach_images ximg m)) "Mike"
               (fun r => { r with
                 memory := r.memory ++
                   [move_message_info_to_content (attach_images ximg m)],
                 finished_tasks := r.finished_tasks + 1 }) with
             history := env.history ++ [attach_images ximg m] }, true) := by
  simp only [publish_message, hu, ne_eq, not_true_eq_false, if_false, hc, hb,
    if_true, hf, htl, Bool.false_eq_true, basePublish_history, basePublish_dcr,
    basePublish_bypass, updateRole_history, updateRole_dcr, updateRole_bypass]

lemma publish_tl_dummy (ximg : String → List String) (env : MGXEnv)
    (m : Message) (udr pub : String) (tl : Role)
    (hu : udr = "")
    (hc : env.direct_chat_roles.contains (attach_images ximg m).sent_from = false)
    (hb : (env.allow_bypass_team_leader
            && message_within_software_sop (attach_images ximg m)
            && !(has_user_requirement env 1)) = false)
    (htl : get_role env "Mike" = some tl)
    (hp : pub = tl.profile)
    (hno : pySetEq (attach_images ximg m).send_to ["no one"] = true) :
    publish_message ximg env m udr pub = .ok (env, true) := by
  simp only [publish_message, hu, ne_eq, not_true_eq_false, if_false, hc, hb,
    Bool.false_eq_true, htl, if_pos hp, hno, if_true, basePublish_history, basePublish_dcr,
    basePublish_bypass, updateRole_history, updateRole_dcr, updateRole_bypass]

lemma publish_tl_release (ximg : String → List String) (env : MGXEnv)
    (m : Message) (udr pub : String) (tl : Role)
    (hu : udr = "")
    (hc : env.direct_chat_roles.contains (attach_images ximg m).sent_from = false)
    (hb : (env.allow_bypass_team_leader
            && message_within_software_sop (attach_images ximg m)
            && !(has_user_requirement env 1)) = false)
    (htl : get_role env "Mike" = some tl)
    (hp : pub = tl.profile)
    (hno : pySetEq (attach_images ximg m).send_to ["no one"] = false) :
    publish_message ximg env m udr pub =
      .ok ({ basePublishMessage env (attach_images ximg m) with
             history := env.history ++ [attach_images ximg m] }, true) := by
  simp only [publish_message, hu, ne_eq, not_true_eq_false, if_false, hc, hb,
    Bool.false_eq_true, htl, if_pos hp, hno, if_true, basePublish_history, basePublish_dcr,
    basePublish_bypass, updateRole_history, updateRole_dcr, updateRole_bypass]

lemma publish_default (ximg : String → List String) (env : MGXEnv)
    (m : Message) (udr pub : String) (tl : Role)
    (hu : udr = "")
    (hc : env.direct_chat_roles.contains (attach_images ximg m).sent_from = false)
    (hb : (env.allow_bypass_team_leader
            && message_within_software_sop (attach_images ximg m)
            && !(has_user_requirement env 1)) = false)
    (htl : get_role env "Mike" = some tl)
    (hp : pub ≠ tl.profile) :
    publish_message ximg env m udr pub =
      .ok ({ updateRole env tl.name (fun r => put_message r
               { move_message_info_to_content (attach_images ximg m) with
                 send_to := setAdd
                   (move_message_info_to_content (attach_images ximg m)).send_to
                   tl.name }) with
             history := env.history ++
               [{ move_message_info_to_content (attach_images ximg m) with
                  send_to := setAdd
                    (move_message_info_to_content (attach_images ximg m)).send_to
                    tl.name }] }, true) := by
  simp only [publish_message, hu, ne_eq, not_true_eq_false, if_false, hc, hb,
    Bool.false_eq_true, htl, if_neg hp, basePublish_history, basePublish_dcr,
    basePublish_bypass, updateRole_history, updateRole_dcr, updateRole_bypass]

lemma publish_user_defined_error (ximg : String → List String) (env : MGXEnv)
    (m : Message) (udr pub e : String)
    (hu : udr ≠ "")
    (hd : directChatAdds env (attach_images ximg m).send_to
            env.direct_chat_roles = .error e) :
    publish_message ximg env m udr pub = .error e := by
  simp only [publish_message, if_pos hu, hd]

lemma publish_bypass_finished_noTL (ximg : String → List String) (env : MGXEnv)
    (m : Message) (udr pub : String)
    (hu : udr = "")
    (hc : env.direct_chat_roles.contains (attach_images ximg m).sent_from = false)
    (hb : (env.allow_bypass_team_leader
            && message_within_software_sop (attach_images ximg m)
            && !(has_user_requirement env 1)) = true)
    (hf : is_software_task_finished (attach_images ximg m) = true)
    (htl : get_role env "Mike" = none) :
    publish_message ximg env m udr pub =
      .error "AttributeError: NoneType object has no attribute rc" := by
  simp only [publish_message, hu, ne_eq, not_true_eq_false, if_false, hc, hb,
    if_true, hf, htl, Bool.false_eq_true]

lemma publish_noTL (ximg : String → List String) (env : MGXEnv)
    (m : Message) (udr pub : String)
    (hu : udr = "")
    (hc : env.direct_chat_roles.contains (attach_images ximg m).sent_from = false)
    (hb : (env.allow_bypass_team_leader
            && message_within_software_sop (attach_images ximg m)
            && !(has_user_requirement env 1)) = false)
    (htl : get_role env "Mike" = none) :
    publish_message ximg env m udr pub =
      .error "AttributeError: NoneType object has no attribute profile" := by
  simp only [publish_message, hu, ne_eq, not_true_eq_false, if_false, hc, hb,
    Bool.false_eq_true, htl]

/-! ### Claim theorems -/

/-- C6: `is_software_task_finished` returns true if and only if `cause_by`
is one of the WritePRD/WriteDesign/WriteTasks/SummarizeCode tags, or is the
WriteTest tag with the literal substring "Exceeding" occurring in the
content; in particular it is true for a WriteTest-caused message containing
"Exceeding budget" and false for one reading "All tests passed". -/
theorem C6_is_software_task_finished_characterization :
    (∀ m : Message, is_software_task_finished m = true ↔
      (m.cause_by = WritePRDTag ∨ m.cause_by = WriteDesignTag ∨
        m.cause_by = WriteTasksTag ∨ m.cause_by = SummarizeCodeTag ∨
        (m.cause_by = WriteTestTag ∧ containsSubstr m.content "Exceeding" = true)))
    ∧ is_software_task_finished
        { content := "... Exceeding budget", role := "assistant", sent_from := "",
          send_to := [], cause_by := WriteTestTag, metadata := [] } = true
    ∧ is_software_task_finished
        { content := "All tests passed", role := "assistant", sent_from := "",
          send_to := [], cause_by := WriteTestTag, metadata := [] } = false := by
  refine ⟨fun m => ?_, by decide, by decide⟩
  simp only [is_software_task_finished, Bool.or_eq_true, Bool.and_eq_true,
    decide_eq_true_eq, List.contains_eq_any_beq, List.any_eq_true, List.mem_cons,
    List.mem_singleton, beq_iff_eq, List.not_mem_nil, exists_eq_or_imp,
    exists_eq_left, or_false, false_or]
  tauto

/-- C7: `message_within_software_sop` returns true if and only if the
message's sender is a role whose profile is one of Product Manager,
Architect or Project Manager. -/
theorem C7_message_within_software_sop_iff (m : Message) :
    message_within_software_sop m = true ↔
      ∃ p, tagProfile m.sent_from = some p ∧
        (p = "Product Manager" ∨ p = "Architect" ∨ p = "Project Manager") := by
  constructor
  · intro h
    have h' : m.sent_from = ProductManagerTag ∨ m.sent_from = ArchitectTag ∨
        m.sent_from = ProjectManagerTag := by
      simpa only [message_within_software_sop, List.contains_eq_any_beq,
        List.any_eq_true, List.mem_cons, List.mem_singleton, List.not_mem_nil,
        beq_iff_eq, or_false, false_or, exists_eq_or_imp, exists_eq_left] using h
    rcases h' with h | h | h
    · exact ⟨"Product Manager", by rw [h]; rfl, Or.inl rfl⟩
    · exact ⟨"Architect", by rw [h]; rfl, Or.inr (Or.inl rfl)⟩
    · exact ⟨"Project Manager", by rw [h]; rfl, Or.inr (Or.inr rfl)⟩
  · rintro ⟨p, hp, hor⟩
    unfold tagProfile at hp
    split_ifs at hp with h1 h2 h3 h4 h5
    · rw [message_within_software_sop, h1]; decide
    · rw [message_within_software_sop, h2]; decide
    · rw [message_within_software_sop, h3]; decide
    · exfalso
      cases hp
      rcases hor with h | h | h <;> exact absurd h (by decide)
    · exfalso
      cases hp
      rcases hor with h | h | h <;> exact absurd h (by decide)

/-- C1 fails on the code: publishing the team leader's dummy "no one"
message returns through the early `return True` (`mgx_env.py`, line 78)
before the `self.history.add` of line 88, so after this single call
the history still has length 0, not 1. -/
theorem C1_claim_counterexample :
    publish_message noImg exEnv dummyMsg "" "Team Leader" = .ok (exEnv, true)
    ∧ exEnv.history.length = 0 := by
  exact ⟨by decide, rfl⟩

/-- C2 fails on the code in its "recorded in history" part: the team
leader's dummy "no one" message is delivered to zero mailboxes and the call
returns true, but the resulting environment is entirely unchanged — in
particular the message is NOT recorded in history. -/
theorem C2_claim_counterexample :
    publish_message noImg exEnv dummyMsg "" "Team Leader" = .ok (exEnv, true)
    ∧ exEnv.history.contains dummyMsg = false := by
  exact ⟨by decide, by decide⟩

/-- C8 fails on the code: a user-addressed publish whose `send_to` names an
agent that does not exist in the roster raises an `AttributeError`
(`self.get_role(role_name).is_idle` on `None`, `mgx_env.py`, line 39)
instead of dropping the message silently. -/
theorem C8_claim_counterexample :
    publish_message noImg exEnv
        { content := "hi", role := "user", sent_from := "",
          send_to := ["Bob"], cause_by := "", metadata := [] } "user" ""
      = .error "AttributeError: NoneType object has no attribute is_idle" := by
  decide

/-- C1 (amended): every completing `publish_message` call appends exactly
one (possibly rewritten) message to the history log — EXCEPT a call
suppressed by the team leader's "no one" sentinel, which returns before the
history append and records nothing; so `len(history)` after N calls equals
N minus the number of "no one"-suppressed calls. -/
theorem C1_history_append_amended (ximg : String → List String) (env : MGXEnv)
    (m : Message) (udr pub : String) (env' : MGXEnv) (b : Bool)
    (h : publish_message ximg env m udr pub = .ok (env', b)) :
    env'.history.length = env.history.length +
      (if isDummySuppressed env m udr pub then 0 else 1) := by
  by_cases hu : udr = ""
  case neg =>
    have hd : isDummySuppressed env m udr pub = false := by
      simp [isDummySuppressed, hu]
    rcases hdc : directChatAdds env (attach_images ximg m).send_to
        env.direct_chat_roles with e | dcr
    · rw [publish_user_defined_error ximg env m udr pub e hu hdc] at h
      exact absurd h (by simp)
    · rw [publish_user_defined ximg env m udr pub dcr hu hdc] at h
      simp only [Except.ok.injEq, Prod.mk.injEq] at h
      obtain ⟨h1, -⟩ := h
      subst h1
      rw [hd]
      simp
  case pos =>
  by_cases hc : env.direct_chat_roles.contains (attach_images ximg m).sent_from = true
  · have hcm : env.direct_chat_roles.contains m.sent_from = true := by simpa using hc
    have hd : isDummySuppressed env m udr pub = false := by
      simp only [isDummySuppressed, hcm]
      simp
    rw [publish_direct_chat_response ximg env m udr pub hu hc] at h
    simp only [Except.ok.injEq, Prod.mk.injEq] at h
    obtain ⟨h1, -⟩ := h
    subst h1
    rw [hd]
    simp
  · have hc' : env.direct_chat_roles.contains (attach_images ximg m).sent_from
        = false := by simpa using hc
    have hcm : env.direct_chat_roles.contains m.sent_from = false := by
      simpa using hc'
    by_cases hb : (env.allow_bypass_team_leader
        && message_within_software_sop (attach_images ximg m)
        && !(has_user_requirement env 1)) = true
    · have hbm : (env.allow_bypass_team_leader && message_within_software_sop m
          && !(has_user_requirement env 1)) = true := by simpa using hb
      have hd : isDummySuppressed env m udr pub = false := by
        simp only [isDummySuppressed, hbm]
        simp
      by_cases hf : is_software_task_finished (attach_images ximg m) = true
      · rcases htl : get_role env "Mike" with _ | tl
        · rw [publish_bypass_finished_noTL ximg env m udr pub hu hc' hb hf htl] at h
          exact absurd h (by simp)
        · rw [publish_bypass_finished ximg env m udr pub tl hu hc' hb hf htl] at h
          simp only [Except.ok.injEq, Prod.mk.injEq] at h
          obtain ⟨h1, -⟩ := h
          subst h1
          rw [hd]
          simp
      · have hf' : is_software_task_finished (attach_images ximg m) = false := by
          simpa using hf
        rw [publish_bypass_not_finished ximg env m udr pub hu hc' hb hf'] at h
        simp only [Except.ok.injEq, Prod.mk.injEq] at h
        obtain ⟨h1, -⟩ := h
        subst h1
        rw [hd]
        simp
    · have hb' : (env.allow_bypass_team_leader
          && message_within_software_sop (attach_images ximg m)
          && !(has_user_requirement env 1)) = false := by simpa using hb
      have hbm : (env.allow_bypass_team_leader && message_within_software_sop m
          && !(has_user_requirement env 1)) = false := by simpa using hb'
      rcases htl : get_role env "Mike" with _ | tl
      · rw [publish_noTL ximg env m udr pub hu hc' hb' htl] at h
        exact absurd h (by simp)
      · by_cases hp : pub = tl.profile
        · by_cases hno : pySetEq (attach_images ximg m).send_to ["no one"] = true
          · have hnom : pySetEq m.send_to ["no one"] = true := by simpa using hno
            have hd : isDummySuppressed env m udr pub = true := by
              subst hu
              subst hp
              simp only [isDummySuppressed, hcm, hbm, htl, hnom]
              simp
            rw [publish_tl_dummy ximg env m udr pub tl hu hc' hb' htl hp hno] at h
            simp only [Except.ok.injEq, Prod.mk.injEq] at h
            obtain ⟨h1, -⟩ := h
            subst h1
            rw [hd]
            simp
          · have hno' : pySetEq (attach_images ximg m).send_to ["no one"]
                = false := by simpa using hno
            have hnom : pySetEq m.send_to ["no one"] = false := by simpa using hno'
            have hd : isDummySuppressed env m udr pub = false := by
              simp only [isDummySuppressed, htl, hnom]
              simp
            rw [publish_tl_release ximg env m udr pub tl hu hc' hb' htl hp hno'] at h
            simp only [Except.ok.injEq, Prod.mk.injEq] at h
            obtain ⟨h1, -⟩ := h
            subst h1
            rw [hd]
            simp
        · have hd : isDummySuppressed env m udr pub = false := by
            simp only [isDummySuppressed, htl]
            simp [hp]
          rw [publish_default ximg env m udr pub tl hu hc' hb' htl hp] at h
          simp only [Except.ok.injEq, Prod.mk.injEq] at h
          obtain ⟨h1, -⟩ := h
          subst h1
          rw [hd]
          simp

/-- Witness for the amended C1: a concrete default-routing publish appends
exactly one history entry. -/
theorem C1_history_append_amended_witness :
    publish_message noImg exEnv dummyMsg "" "" =
      .ok ({ updateRole exEnv "Mike" (fun r => put_message r
               { move_message_info_to_content dummyMsg with
                 send_to := setAdd (move_message_info_to_content dummyMsg).send_to
                   "Mike" }) with
             history := exEnv.history ++
               [{ move_message_info_to_content dummyMsg with
                  send_to := setAdd (move_message_info_to_content dummyMsg).send_to
                    "Mike" }] }, true)
    ∧ ({ updateRole exEnv "Mike" (fun r => put_message r
          { move_message_info_to_content dummyMsg with
            send_to := setAdd (move_message_info_to_content dummyMsg).send_to
              "Mike" }) with
         history := exEnv.history ++
           [{ move_message_info_to_content dummyMsg with
              send_to := setAdd (move_message_info_to_content dummyMsg).send_to
                "Mike" }] } : MGXEnv).history.length =
      exEnv.history.length + (if isDummySuppressed exEnv dummyMsg "" "" then 0 else 1) := by
  refine ⟨by decide, ?_⟩
  exact C1_history_append_amended noImg exEnv dummyMsg "" "" _ true (by decide)

lemma mem_setAdd_self (l : List String) (x : String) : x ∈ setAdd l x := by
  unfold setAdd
  split
  case isTrue h => simpa using h
  case isFalse h => simp

lemma mem_setAdd_of_mem (l : List String) (x y : String) (h : y ∈ l) :
    y ∈ setAdd l x := by
  unfold setAdd
  split
  · exact h
  · simp [h]

@[simp] lemma put_message_name (r : Role) (m : Message) :
    (put_message r m).name = r.name := by
  unfold put_message; split <;> rfl

@[simp] lemma move_send_to (m : Message) :
    (move_message_info_to_content m).send_to = m.send_to := rfl

@[simp] lemma move_sent_from (m : Message) :
    (move_message_info_to_content m).sent_from = m.sent_from := rfl

lemma get_role_eq_name (env : MGXEnv) (n : String) (r : Role)
    (h : get_role env n = some r) : r.name = n := by
  unfold get_role at h
  simpa using List.find?_some h

/-- When every addressed name resolves to a role, the direct-chat loop
terminates without raising. -/
lemma directChatAdds_ok (env : MGXEnv) (names acc : List String)
    (hres : ∀ n ∈ names, (get_role env n).isSome = true) :
    ∃ l, directChatAdds env names acc = .ok l := by
  induction names generalizing acc with
  | nil => exact ⟨acc, rfl⟩
  | cons n rest ih =>
    rcases hg : get_role env n with _ | r
    · exact absurd (hres n (by simp)) (by simp [hg])
    · simp only [directChatAdds, hg]
      exact ih _ (fun x hx => hres x (List.mem_cons_of_mem _ hx))

/-- C2 (amended): when `publish_message` is called with `publicer` equal to
the team leader's profile and a message whose `send_to` equals the
\x7b"no one"\x7d sentinel (no user-defined recipient, sender not in a direct
chat, SOP fast-path not applicable), the message is delivered to zero
mailboxes and the call returns true, but — contrary to the original claim —
it is NOT recorded in history: the environment comes back entirely
unchanged (`mgx_env.py`, lines 76–78, returns before line 88). -/
theorem C2_tl_dummy_amended (ximg : String → List String) (env : MGXEnv)
    (m : Message) (udr pub : String) (tl : Role)
    (hu : udr = "")
    (hc : env.direct_chat_roles.contains m.sent_from = false)
    (hb : (env.allow_bypass_team_leader && message_within_software_sop m
            && !(has_user_requirement env 1)) = false)
    (htl : get_role env "Mike" = some tl)
    (hp : pub = tl.profile)
    (hno : pySetEq m.send_to ["no one"] = true) :
    publish_message ximg env m udr pub = .ok (env, true) :=
  publish_tl_dummy ximg env m udr pub tl hu (by simpa using hc)
    (by simpa using hb) htl hp (by simpa using hno)

/-- Witness for the amended C2 at a concrete environment. -/
theorem C2_tl_dummy_amended_witness :
    publish_message noImg exEnv dummyMsg "" "Team Leader" = .ok (exEnv, true) :=
  C2_tl_dummy_amended noImg exEnv dummyMsg "" "Team Leader" mikeR rfl
    (by decide) (by decide) (by decide) (by decide) (by decide)

/-- C8 (amended): `publish_message` returns true and never raises provided
the team leader role "Mike" exists in the roster and, when
`user_defined_recipient` is set, every name in `send_to` resolves to a
known role; with an unknown addressee on the user-defined path the call
instead raises (see the counterexample). -/
theorem C8_returns_true_amended (ximg : String → List String) (env : MGXEnv)
    (m : Message) (udr pub : String) (tl : Role)
    (htl : get_role env "Mike" = some tl)
    (hres : udr ≠ "" → ∀ n ∈ m.send_to, (get_role env n).isSome = true) :
    ∃ env', publish_message ximg env m udr pub = .ok (env', true) := by
  by_cases hu : udr = ""
  case neg =>
    obtain ⟨dcr, hd⟩ := directChatAdds_ok env (attach_images ximg m).send_to
      env.direct_chat_roles (by simpa using hres hu)
    exact ⟨_, publish_user_defined ximg env m udr pub dcr hu hd⟩
  case pos =>
  by_cases hc : env.direct_chat_roles.contains (attach_images ximg m).sent_from = true
  · exact ⟨_, publish_direct_chat_response ximg env m udr pub hu hc⟩
  · have hc' : env.direct_chat_roles.contains (attach_images ximg m).sent_from
        = false := by simpa using hc
    by_cases hb : (env.allow_bypass_team_leader
        && message_within_software_sop (attach_images ximg m)
        && !(has_user_requirement env 1)) = true
    · by_cases hf : is_software_task_finished (attach_images ximg m) = true
      · exact ⟨_, publish_bypass_finished ximg env m udr pub tl hu hc' hb hf htl⟩
      · exact ⟨_, publish_bypass_not_finished ximg env m udr pub hu hc' hb
          (by simpa using hf)⟩
    · have hb' : (env.allow_bypass_team_leader
          && message_within_software_sop (attach_images ximg m)
          && !(has_user_requirement env 1)) = false := by simpa using hb
      by_cases hp : pub = tl.profile
      · by_cases hno : pySetEq (attach_images ximg m).send_to ["no one"] = true
        · exact ⟨env, publish_tl_dummy ximg env m udr pub tl hu hc' hb' htl hp hno⟩
        · exact ⟨_, publish_tl_release ximg env m udr pub tl hu hc' hb' htl hp
            (by simpa using hno)⟩
      · exact ⟨_, publish_default ximg env m udr pub tl hu hc' hb' htl hp⟩

/-- Witness for the amended C8: a user-addressed publish to an existing
idle role completes and returns true. -/
theorem C8_returns_true_amended_witness :
    ∃ env', publish_message noImg exEnv2
      { content := "hi", role := "user", sent_from := "",
        send_to := ["Bob"], cause_by := "", metadata := [] } "user" ""
      = .ok (env', true) :=
  C8_returns_true_amended noImg exEnv2
    { content := "hi", role := "user", sent_from := "",
      send_to := ["Bob"], cause_by := "", metadata := [] } "user" "" mikeR
    (by decide) (fun _ => by decide)

/-- C4: under default routing (no user-defined recipient, sender not in a
direct chat, SOP bypass not applicable, publicer not the team leader),
`publish_message` delivers exactly one copy of the rewritten message — to
the team leader's mailbox only, every other role untouched — where the
rewrite coerces a role outside \x7bsystem, user, assistant\x7d to
"assistant", prepends `"[Message] from X to Y: "` provenance to the
content, and adds the team leader's name to `send_to` by union so that the
original recipients are retained. -/
theorem C4_default_routing (ximg : String → List String) (env : MGXEnv)
    (m : Message) (udr pub : String) (tl : Role)
    (hu : udr = "")
    (hc : env.direct_chat_roles.contains m.sent_from = false)
    (hb : (env.allow_bypass_team_leader && message_within_software_sop m
            && !(has_user_requirement env 1)) = false)
    (htl : get_role env "Mike" = some tl)
    (hp : pub ≠ tl.profile) :
    ∃ env', publish_message ximg env m udr pub = .ok (env', true) ∧
      (let am := attach_images ximg m
       let rw : Message := { move_message_info_to_content am with
         send_to := setAdd (move_message_info_to_content am).send_to tl.name }
       env'.roles = env.roles.map
         (fun r => if r.name = tl.name then put_message r rw else r) ∧
       env'.history = env.history ++ [rw] ∧
       env'.direct_chat_roles = env.direct_chat_roles ∧
       rw.role = (if ["system", "user", "assistant"].contains am.role
                  then am.role else "assistant") ∧
       rw.content = "[Message] from " ++ msgSender am ++ " to " ++
         renderStrSet am.send_to ++ ": " ++ am.content ∧
       (∃ rest, rw.content = "[Message] from " ++ rest) ∧
       tl.name ∈ rw.send_to ∧ (∀ x ∈ m.send_to, x ∈ rw.send_to)) := by
  refine ⟨_, publish_default ximg env m udr pub tl hu (by simpa using hc)
    (by simpa using hb) htl hp, ?_⟩
  refine ⟨rfl, rfl, rfl, rfl, rfl, ?_, ?_, ?_⟩
  · refine ⟨msgSender (attach_images ximg m) ++ (" to " ++
      (renderStrSet (attach_images ximg m).send_to ++ (": " ++
        (attach_images ximg m).content))), ?_⟩
    show "[Message] from " ++ msgSender (attach_images ximg m) ++ " to " ++
      renderStrSet (attach_images ximg m).send_to ++ ": " ++
      (attach_images ximg m).content = _
    rw [String.append_assoc, String.append_assoc, String.append_assoc,
      String.append_assoc]
  · exact mem_setAdd_self _ _
  · intro x hx
    apply mem_setAdd_of_mem
    simpa using hx

/-- Witness for C4 at a concrete environment: a regular engineer message
addressed to "Alice" is rewritten and enqueued to Mike only. -/
theorem C4_default_routing_witness :
    ∃ env', publish_message noImg exEnv2
        { content := "hello", role := "Engineer", sent_from := "Alex",
          send_to := ["Alice"], cause_by := "", metadata := [] } "" ""
      = .ok (env', true) ∧
      (let am := attach_images noImg
        { content := "hello", role := "Engineer", sent_from := "Alex",
          send_to := ["Alice"], cause_by := "", metadata := [] }
       let rw : Message := { move_message_info_to_content am with
         send_to := setAdd (move_message_info_to_content am).send_to mikeR.name }
       env'.roles = exEnv2.roles.map
         (fun r => if r.name = mikeR.name then put_message r rw else r) ∧
       env'.history = exEnv2.history ++ [rw] ∧
       env'.direct_chat_roles = exEnv2.direct_chat_roles ∧
       rw.role = (if ["system", "user", "assistant"].contains am.role
                  then am.role else "assistant") ∧
       rw.content = "[Message] from " ++ msgSender am ++ " to " ++
         renderStrSet am.send_to ++ ": " ++ am.content ∧
       (∃ rest, rw.content = "[Message] from " ++ rest) ∧
       mikeR.name ∈ rw.send_to ∧
       (∀ x ∈ ["Alice"], x ∈ rw.send_to)) :=
  C4_default_routing noImg exEnv2
    { content := "hello", role := "Engineer", sent_from := "Alex",
      send_to := ["Alice"], cause_by := "", metadata := [] } "" "" mikeR
    rfl (by decide) (by decide) (by decide) (by decide)

/-- The concrete environment for the SOP fast-path scenario:
`allow_bypass_team_leader` set, Mike and Bob in the roster. -/
def exEnvBypass : MGXEnv :=
  { roles := [mikeR, bobR], history := [], direct_chat_roles := [],
    allow_bypass_team_leader := true }

/-- A finished planning-step message: sent by the Product Manager class,
caused by `WritePRD`, addressed to "Alice". -/
def prdMsg : Message :=
  { content := "PRD done", role := "assistant", sent_from := ProductManagerTag,
    send_to := ["Alice"], cause_by := WritePRDTag, metadata := [] }

/-- C5: with `allow_bypass_team_leader = true`, a message sent by a planning
role with no user requirement among the last k=1 history entries is
delivered verbatim to its original `send_to` set — the team leader's
mailbox untouched — whether or not the finish detector fires; when the
message additionally satisfies `is_software_task_finished`, the rewritten
message info is added to the team leader's memory and its
finish-current-task transition is invoked directly, and otherwise the team
leader's state is left entirely unchanged. -/
theorem C5_sop_bypass_delivery (ximg : String → List String) (env : MGXEnv)
    (m : Message) (udr pub : String) (tl : Role)
    (hu : udr = "")
    (hc : env.direct_chat_roles.contains m.sent_from = false)
    (hflag : env.allow_bypass_team_leader = true)
    (hsop : message_within_software_sop m = true)
    (husr : has_user_requirement env 1 = false)
    (htl : get_role env "Mike" = some tl)
    (hmk : m.send_to.contains "Mike" = false) :
    ∃ env', publish_message ximg env m udr pub = .ok (env', true) ∧
      (let am := attach_images ximg m
       env'.history = env.history ++ [am] ∧
       env'.direct_chat_roles = env.direct_chat_roles ∧
       env'.roles = env.roles.map (fun r =>
         if r.name = "Mike" then
           (if is_software_task_finished m then
              { r with memory := r.memory ++ [move_message_info_to_content am],
                       finished_tasks := r.finished_tasks + 1 }
            else r)
         else if am.send_to.contains r.name then put_message r am else r)) := by
  have hb : (env.allow_bypass_team_leader
      && message_within_software_sop (attach_images ximg m)
      && !(has_user_requirement env 1)) = true := by
    simp [hflag, hsop, husr]
  by_cases hf : is_software_task_finished m = true
  · refine ⟨_, publish_bypass_finished ximg env m udr pub tl hu (by simpa using hc)
      hb (by simpa using hf) htl, rfl, rfl, ?_⟩
    show (List.map _ (List.map _ env.roles)) = _
    rw [List.map_map]
    apply List.map_congr_left
    intro r _
    by_cases hr : r.name = "Mike"
    · have hmkam : "Mike" ∉ m.send_to := by simpa using hmk
      simp [Function.comp, hr, hmkam, hf]
    · by_cases hmem : r.name ∈ m.send_to
      · simp [Function.comp, hr, hmem]
      · simp [Function.comp, hr, hmem]
  · have hfm : is_software_task_finished m = false := by simpa using hf
    refine ⟨_, publish_bypass_not_finished ximg env m udr pub hu
      (by simpa using hc) hb (by simpa using hfm), rfl, rfl, ?_⟩
    show (List.map _ env.roles) = _
    apply List.map_congr_left
    intro r _
    by_cases hr : r.name = "Mike"
    · have hmkam : "Mike" ∉ m.send_to := by simpa using hmk
      simp [hr, hmkam, hfm]
    · by_cases hmem : r.name ∈ m.send_to
      · simp [hr, hmem]
      · simp [hr, hmem]

/-- A planning-step progress message that does NOT satisfy the finish
detector: sent by the Product Manager with a non-terminal cause tag. -/
def pmProgressMsg : Message :=
  { content := "drafting the PRD", role := "assistant",
    sent_from := ProductManagerTag, send_to := ["Alice"], cause_by := "",
    metadata := [] }

/-- Witness for C5 on both sides of the finish detector: a `WritePRD`
message (finished — team leader memory and task counter updated) and a
progress message (not finished — delivered verbatim, team leader entirely
untouched), each in a bypass-enabled environment with empty history. -/
theorem C5_sop_bypass_delivery_witness :
    (∃ env', publish_message noImg exEnvBypass prdMsg "" "" = .ok (env', true) ∧
      (let am := attach_images noImg prdMsg
       env'.history = exEnvBypass.history ++ [am] ∧
       env'.direct_chat_roles = exEnvBypass.direct_chat_roles ∧
       env'.roles = exEnvBypass.roles.map (fun r =>
         if r.name = "Mike" then
           (if is_software_task_finished prdMsg then
              { r with memory := r.memory ++ [move_message_info_to_content am],
                       finished_tasks := r.finished_tasks + 1 }
            else r)
         else if am.send_to.contains r.name then put_message r am else r)))
    ∧ (∃ env', publish_message noImg exEnvBypass pmProgressMsg "" ""
        = .ok (env', true) ∧
      (let am := attach_images noImg pmProgressMsg
       env'.history = exEnvBypass.history ++ [am] ∧
       env'.direct_chat_roles = exEnvBypass.direct_chat_roles ∧
       env'.roles = exEnvBypass.roles.map (fun r =>
         if r.name = "Mike" then
           (if is_software_task_finished pmProgressMsg then
              { r with memory := r.memory ++ [move_message_info_to_content am],
                       finished_tasks := r.finished_tasks + 1 }
            else r)
         else if am.send_to.contains r.name then put_message r am else r))) :=
  ⟨C5_sop_bypass_delivery noImg exEnvBypass prdMsg "" "" mikeR rfl
     (by decide) (by decide) (by decide) (by decide) (by decide) (by decide),
   C5_sop_bypass_delivery noImg exEnvBypass pmProgressMsg "" "" mikeR rfl
     (by decide) (by decide) (by decide) (by decide) (by decide) (by decide)⟩

/-- C3: a user-addressed publish naming an idle agent R adds R to
`direct_chat_roles` (and delivers the message to R's mailbox); the next
message published with `sent_from = R` (as an agent publish, i.e. without a
user-defined recipient) is withheld from every mailbox while still being
recorded in history, and R is removed from `direct_chat_roles`; a second
subsequent message from R is then routed normally — here through the
default rule into the team leader's mailbox. -/
theorem C3_direct_chat_round_trip (ximg : String → List String)
    (mk r : Role) (R : String) (hist : List Message)
    (m1 m2 m3 : Message) (udr1 pub1 pub2 pub3 : String)
    (hmk : mk.name = "Mike") (hrn : r.name = R) (hR : R ≠ "Mike")
    (hidle : r.is_idle = true)
    (hm1 : m1.send_to = [R]) (hu1 : udr1 ≠ "")
    (hm2 : m2.sent_from = R)
    (hm3 : m3.sent_from = R)
    (hp3 : pub3 ≠ mk.profile) :
    (let am1 := attach_images ximg m1
     let am2 := attach_images ximg m2
     let am3 := attach_images ximg m3
     let rw3 : Message := { move_message_info_to_content am3 with
       send_to := setAdd (move_message_info_to_content am3).send_to mk.name }
     publish_message ximg ⟨[mk, r], hist, [], false⟩ m1 udr1 pub1 =
       .ok (⟨[mk, put_message r am1], hist ++ [am1], [R], false⟩, true)
     ∧ publish_message ximg
         ⟨[mk, put_message r am1], hist ++ [am1], [R], false⟩ m2 "" pub2 =
       .ok (⟨[mk, put_message r am1], (hist ++ [am1]) ++ [am2], [], false⟩, true)
     ∧ publish_message ximg
         ⟨[mk, put_message r am1], (hist ++ [am1]) ++ [am2], [], false⟩
         m3 "" pub3 =
       .ok (⟨[put_message mk rw3, put_message r am1],
             ((hist ++ [am1]) ++ [am2]) ++ [rw3], [], false⟩, true)) := by
  have hMR : ¬(("Mike" : String) = R) := fun h => hR h.symm
  have hfind : get_role ⟨[mk, r], hist, [], false⟩ R = some r := by
    simp [get_role, List.find?_cons, hmk, hrn, hMR]
  have hd1 : directChatAdds ⟨[mk, r], hist, [], false⟩ [R] [] = .ok [R] := by
    simp [directChatAdds, hfind, hidle, setAdd]
  have hd1' : directChatAdds ⟨[mk, r], hist, [], false⟩
      (attach_images ximg m1).send_to [] = .ok [R] := by
    rw [attach_images_send_to, hm1]; exact hd1
  refine ⟨?_, ?_, ?_⟩
  · rw [publish_user_defined ximg _ m1 udr1 pub1 [R] hu1 hd1']
    simp only [Except.ok.injEq, Prod.mk.injEq]
    refine ⟨?_, trivial⟩
    simp [basePublishMessage, hmk, hrn, hm1, hMR]
  · rw [publish_direct_chat_response ximg _ m2 "" pub2 rfl
      (by simp [hm2])]
    simp only [Except.ok.injEq, Prod.mk.injEq]
    refine ⟨?_, trivial⟩
    simp [setRemove, hm2]
  · have htl3 : get_role
        ⟨[mk, put_message r (attach_images ximg m1)],
         (hist ++ [attach_images ximg m1]) ++ [attach_images ximg m2],
         [], false⟩ "Mike" = some mk := by
      simp [get_role, List.find?_cons, hmk]
    rw [publish_default ximg _ m3 "" pub3 mk rfl (by simp) (by simp) htl3 hp3]
    simp only [Except.ok.injEq, Prod.mk.injEq]
    refine ⟨?_, trivial⟩
    simp [updateRole, hmk, hrn, hR]

/-- The human user's direct-chat opener to Bob. -/
def dmUser : Message :=
  { content := "hi Bob", role := "user", sent_from := "",
    send_to := ["Bob"], cause_by := "", metadata := [] }

/-- Bob's direct-chat reply. -/
def dmReply : Message :=
  { content := "here you go", role := "assistant", sent_from := "Bob",
    send_to := [], cause_by := "", metadata := [] }

/-- Bob's follow-up message after the direct chat ended. -/
def dmLater : Message :=
  { content := "continuing work", role := "assistant", sent_from := "Bob",
    send_to := ["Alice"], cause_by := "", metadata := [] }

/-- Witness for C3 with Mike and an idle Bob. -/
theorem C3_direct_chat_round_trip_witness :
    (let am1 := attach_images noImg dmUser
     let am2 := attach_images noImg dmReply
     let am3 := attach_images noImg dmLater
     let rw3 : Message := { move_message_info_to_content am3 with
       send_to := setAdd (move_message_info_to_content am3).send_to mikeR.name }
     publish_message noImg ⟨[mikeR, bobR], [], [], false⟩ dmUser "user" "" =
       .ok (⟨[mikeR, put_message bobR am1], [] ++ [am1], ["Bob"], false⟩, true)
     ∧ publish_message noImg
         ⟨[mikeR, put_message bobR am1], [] ++ [am1], ["Bob"], false⟩
         dmReply "" "" =
       .ok (⟨[mikeR, put_message bobR am1], ([] ++ [am1]) ++ [am2], [], false⟩,
         true)
     ∧ publish_message noImg
         ⟨[mikeR, put_message bobR am1], ([] ++ [am1]) ++ [am2], [], false⟩
         dmLater "" "" =
       .ok (⟨[put_message mikeR rw3, put_message bobR am1],
             (([] ++ [am1]) ++ [am2]) ++ [rw3], [], false⟩, true)) :=
  C3_direct_chat_round_trip noImg mikeR bobR "Bob" [] dmUser dmReply dmLater
    "user" "" "" "" rfl rfl (by decide) rfl rfl (by decide) rfl rfl (by decide)

/-! ### Store lemmas -/

lemma readRef_lt (st : MsgStore) (r : Nat) (m : Message)
    (h : readRef st r = some m) : r < st.msgs.length := by
  by_contra hge
  rw [readRef, List.get?_len_le (Nat.le_of_not_lt hge)] at h
  cases h

lemma readRef_writeRef_self (st : MsgStore) (i : Nat) (v : Message)
    (h : i < st.msgs.length) : readRef (writeRef st i v) i = some v := by
  simp [readRef, writeRef, List.get?_eq_getElem?, h]

lemma readRef_writeRef_ne (st : MsgStore) (i j : Nat) (v : Message)
    (h : i ≠ j) : readRef (writeRef st i v) j = readRef st j := by
  simp [readRef, writeRef, List.get?_eq_getElem?, List.getElem?_set_ne h]

lemma readRef_append_self (st : MsgStore) (m : Message) :
    readRef ⟨st.msgs ++ [m]⟩ st.msgs.length = some m :=
  List.get?_concat_length _ _

lemma readRef_append_ne (st : MsgStore) (m : Message) (q : Nat)
    (h : q ≠ st.msgs.length) : readRef ⟨st.msgs ++ [m]⟩ q = readRef st q := by
  rcases Nat.lt_or_ge q st.msgs.length with hlt | hge
  · exact List.get?_append hlt
  · have hgt : st.msgs.length < q := Nat.lt_of_le_of_ne hge (fun e => h e.symm)
    rw [readRef, readRef, List.get?_len_le (by simpa using hgt),
      List.get?_len_le (Nat.le_of_lt hgt)]

/-- C10: `attach_images` returns the very same message object it was given
and mutates it in place — when the role is "user" and the content yields
image references, the reserved IMAGES metadata entry is written into the
caller's own object (every other object untouched); for any other role, or
when no images are found, the store is completely unchanged.  In either
case the object at the returned reference carries exactly the value-level
`attach_images` result. -/
theorem C10_attach_images_in_place (ximg : String → List String)
    (st : MsgStore) (ref : Nat) (m : Message)
    (h : readRef st ref = some m) :
    ∃ st', attach_images_st ximg st ref = some (st', ref) ∧
      readRef st' ref = some (attach_images ximg m) ∧
      (∀ q, q ≠ ref → readRef st' q = readRef st q) ∧
      ((m.role = "user" ∧ ximg m.content ≠ []) ∨ st' = st) := by
  have hlt : ref < st.msgs.length := readRef_lt st ref m h
  by_cases hrole : m.role = "user"
  · by_cases himg : ximg m.content = []
    · refine ⟨st, ?_, ?_, fun q _ => rfl, Or.inr rfl⟩
      · simp [attach_images_st, h, hrole, himg]
      · rw [h]
        simp [attach_images, hrole, himg]
    · refine ⟨writeRef st ref
        { m with metadata := metaSet m.metadata IMAGES (.imgs (ximg m.content)) },
        ?_, ?_, ?_, Or.inl ⟨hrole, himg⟩⟩
      · simp [attach_images_st, h, hrole, himg]
      · rw [readRef_writeRef_self st ref _ hlt]
        simp [attach_images, hrole, himg]
      · intro q hq
        exact readRef_writeRef_ne st ref q _ (fun e => hq e.symm)
  · refine ⟨st, ?_, ?_, fun q _ => rfl, Or.inr rfl⟩
    · simp [attach_images_st, h, hrole]
    · rw [h]
      simp [attach_images, hrole]

/-- A user message that references one image. -/
def imgMsg : Message :=
  { content := "see img.png", role := "user", sent_from := "",
    send_to := [], cause_by := "", metadata := [] }

/-- An image extractor recognizing exactly `imgMsg`'s content. -/
def oneImg : String → List String :=
  fun s => if s = "see img.png" then ["img64"] else []

/-- Witness for C10: a user message containing an image reference gets the
IMAGES metadata written into the same object. -/
theorem C10_attach_images_in_place_witness :
    ∃ st', attach_images_st oneImg ⟨[imgMsg]⟩ 0 = some (st', 0) ∧
      readRef st' 0 = some (attach_images oneImg imgMsg) ∧
      (∀ q, q ≠ 0 → readRef st' q = readRef ⟨[imgMsg]⟩ q) ∧
      ((imgMsg.role = "user" ∧ oneImg imgMsg.content ≠ []) ∨ st' = ⟨[imgMsg]⟩) :=
  C10_attach_images_in_place oneImg ⟨[imgMsg]⟩ 0 imgMsg (by decide)

/-- C9: `move_message_info_to_content` never mutates its argument.  It
allocates a deep copy at a fresh reference, performs the role coercion and
content rewrite on the copy, and returns the copy's reference: afterwards
the original object still holds exactly its old field values (content,
role, send_to, metadata), the copy holds exactly the value-level rewrite,
and every other object in the store is untouched. -/
theorem C9_move_message_info_no_mutation (st : MsgStore) (ref : Nat)
    (m : Message) (h : readRef st ref = some m) :
    ∃ st' newRef, move_message_info_to_content_st st ref = some (st', newRef) ∧
      newRef ≠ ref ∧
      readRef st' ref = some m ∧
      readRef st' newRef = some (move_message_info_to_content m) ∧
      (∀ q, q ≠ newRef → readRef st' q = readRef st q) := by
  have hlt : ref < st.msgs.length := readRef_lt st ref m h
  have hne : st.msgs.length ≠ ref := Nat.ne_of_gt hlt
  have hlen : st.msgs.length < (st.msgs ++ [m]).length := by simp
  by_cases hrole : ["system", "user", "assistant"].contains m.role = true
  · have hrole2 : m.role = "system" ∨ m.role = "user" ∨ m.role = "assistant" := by
      simpa using hrole
    have hrd : readRef ⟨st.msgs ++ [m]⟩ st.msgs.length = some m :=
      readRef_append_self st m
    refine ⟨writeRef ⟨st.msgs ++ [m]⟩ st.msgs.length
      { m with content := "[Message] from " ++ msgSender m ++ " to " ++
          renderStrSet m.send_to ++ ": " ++ m.content },
      st.msgs.length, ?_, hne, ?_, ?_, ?_⟩
    · simp [move_message_info_to_content_st, h, allocRef, hrole2, hrd]
    · rw [readRef_writeRef_ne _ _ _ _ hne, readRef_append_ne st m ref hne.symm]
      exact h
    · rw [readRef_writeRef_self _ _ _ (by simpa using hlen)]
      simp [move_message_info_to_content, hrole2]
    · intro q hq
      rw [readRef_writeRef_ne _ _ _ _ (fun e => hq e.symm),
        readRef_append_ne st m q hq]
  · have hrole2 : ¬(m.role = "system" ∨ m.role = "user" ∨ m.role = "assistant") := by
      simpa using hrole
    have hrd : readRef (writeRef ⟨st.msgs ++ [m]⟩ st.msgs.length
        { m with role := "assistant" }) st.msgs.length =
        some { m with role := "assistant" } :=
      readRef_writeRef_self _ _ _ (by simpa using hlen)
    refine ⟨writeRef (writeRef ⟨st.msgs ++ [m]⟩ st.msgs.length
        { m with role := "assistant" }) st.msgs.length
      { m with role := "assistant",
               content := "[Message] from " ++ msgSender m ++ " to " ++
                 renderStrSet m.send_to ++ ": " ++ m.content },
      st.msgs.length, ?_, hne, ?_, ?_, ?_⟩
    · simp [move_message_info_to_content_st, h, allocRef, hrole2, hrd, msgSender]
    · rw [readRef_writeRef_ne _ _ _ _ hne, readRef_writeRef_ne _ _ _ _ hne,
        readRef_append_ne st m ref hne.symm]
      exact h
    · rw [readRef_writeRef_self _ _ _ (by simp [writeRef])]
      simp [move_message_info_to_content, hrole2]
    · intro q hq
      rw [readRef_writeRef_ne _ _ _ _ (fun e => hq e.symm),
        readRef_writeRef_ne _ _ _ _ (fun e => hq e.symm),
        readRef_append_ne st m q hq]

/-- Witness for C9: rewriting a stored message leaves the original object
intact at its reference and returns a fresh reference. -/
theorem C9_move_message_info_no_mutation_witness :
    ∃ st' newRef,
      move_message_info_to_content_st ⟨[dmLater]⟩ 0 = some (st', newRef) ∧
      newRef ≠ 0 ∧
      readRef st' 0 = some dmLater ∧
      readRef st' newRef = some (move_message_info_to_content dmLater) ∧
      (∀ q, q ≠ newRef → readRef st' q = readRef ⟨[dmLater]⟩ q) :=
  C9_move_message_info_no_mutation ⟨[dmLater]⟩ 0 dmLater (by decide)

end MGX
